import Mathlib

/-!
Verification of the rune-forge workflow orchestration core and the
benchmark / event-extraction utilities.

The workflow orchestrator (module `flowspec_cli.workflow.orchestrator`) is
exposed in the repository only through its call sites
(demo-workflow-execution.py, demo-conditional-workflow.py,
e2e-workflow-with-mcp.py); its internals are reconstructed here from the
specification (sections 3, 4 and 7).  The benchmark metrics
(benchmark_triage.py) and the event extractor (extract_sample_events.py)
are embedded directly from their Python sources.
-/

namespace Workflow

/-- Modelled from the spec: scalar value of an `ExecutionContext` entry
(spec section 3): a string, a number, or a boolean.  Numbers are modelled
as integers. -/
inductive Value where
  | num (n : Int)
  | str (s : String)
  | bool (b : Bool)
deriving DecidableEq

/-- Modelled from the spec: `ExecutionContext` is a mapping from variable
name to scalar value (spec section 3), modelled as an association list. -/
abbrev ExecutionContext := List (String × Value)

/-- Modelled from the spec: lookup of a variable in the execution
context; `none` when the variable is absent. -/
def lookupVar (ctx : ExecutionContext) (v : String) : Option Value :=
  match ctx with
  | [] => none
  | (k, val) :: rest => if k = v then some val else lookupVar rest v

/-- Modelled from the spec: the comparison operators a threshold
condition may use (spec section 4.1). -/
inductive CmpOp where
  | ge | gt | le | lt | eq | ne
deriving DecidableEq

/-- Modelled from the spec: semantics of a comparison operator on
integers. -/
def cmpInt (op : CmpOp) (a b : Int) : Bool :=
  match op with
  | .ge => a ≥ b
  | .gt => a > b
  | .le => a ≤ b
  | .lt => a < b
  | .eq => a = b
  | .ne => a ≠ b

/-- Modelled from the spec: a validated `Condition` (spec section 3): a
threshold comparison `variable op literal`, a presence test, or an
absence test on a named context variable. -/
inductive Condition where
  | threshold (v : String) (op : CmpOp) (lit : Int)
  | presence (v : String)
  | absence (v : String)
deriving DecidableEq

/-- Modelled from the spec: the single context variable a condition
references. -/
def Condition.var : Condition → String
  | .threshold v _ _ => v
  | .presence v => v
  | .absence v => v

/-- Modelled from the spec: whether a condition is explicitly an absence
test (spec section 4.1). -/
def Condition.isAbsence : Condition → Bool
  | .absence _ => true
  | _ => false

/-- Modelled from the spec: numeric view of a scalar value; threshold
conditions compare the variable's numeric value (spec section 4.1). -/
def Value.asNum : Value → Option Int
  | .num n => some n
  | _ => none

/-- Modelled from the spec: the Condition Evaluator (spec section 4.1).
Pure and total: a threshold condition on an absent variable — or on a
non-numeric value — is treated as not satisfied (fails closed); an
absence test on an absent variable is satisfied.  Totality of this
function is the model of the guarantee that evaluation never raises. -/
def evaluate (ctx : ExecutionContext) (c : Condition) : Bool :=
  match c with
  | .threshold v op lit =>
    match lookupVar ctx v with
    | some val =>
      match val.asNum with
      | some n => cmpInt op n lit
      | none => false
    | none => false
  | .presence v => (lookupVar ctx v).isSome
  | .absence v => (lookupVar ctx v).isNone

/-- Modelled from the spec: a raw, possibly malformed condition
expression as it appears in a step template; the Compiler validates it
syntactically (spec section 4.2). -/
inductive RawCondition where
  | threshold (v : String) (op : CmpOp) (lit : Int)
  | presence (v : String)
  | absence (v : String)
  | malformed (text : String)
deriving DecidableEq

/-- Modelled from the spec: syntactic validation of a raw condition
expression; `none` exactly when the expression is malformed. -/
def validateCondition : RawCondition → Option Condition
  | .threshold v op lit => some (.threshold v op lit)
  | .presence v => some (.presence v)
  | .absence v => some (.absence v)
  | .malformed _ => none

/-- Modelled from the spec: a step template of the workflow-definition
graph (spec sections 3 and 6): a role-scoped command identifier, an
optional inclusion condition, and free-form agent metadata. -/
structure StepTemplate where
  command : Option String
  condition : Option RawCondition
  agents : List String
deriving DecidableEq

/-- Modelled from the spec: the workflow-definition graph, a mapping from
workflow name to an ordered list of step templates (spec section 3). -/
abbrev WorkflowDefinition := List (String × List StepTemplate)

/-- Modelled from the spec: lookup of a workflow name in the definition
graph. -/
def lookupWorkflow (g : WorkflowDefinition) (name : String) : Option (List StepTemplate) :=
  match g with
  | [] => none
  | (k, ts) :: rest => if k = name then some ts else lookupWorkflow rest name

/-- Modelled from the spec: a compiled `Step` (spec section 3), owned by
the Compiler's output list. -/
structure Step where
  workflow_name : String
  command : Option String
  condition : Option Condition
deriving DecidableEq

/-- Modelled from the spec: the Compiler's error taxonomy (spec section
7): `UnknownWorkflow` and `InvalidCondition` (naming the offending step's
position and workflow). -/
inductive CompileError where
  | unknownWorkflow (name : String)
  | invalidCondition (workflow : String) (position : Nat)
deriving DecidableEq

/-- Modelled from the spec: the step a single template compiles to when
its condition validates. -/
def mkStep (name : String) (t : StepTemplate) : Step :=
  { workflow_name := name
    command := t.command
    condition := t.condition.bind validateCondition }

/-- Modelled from the spec: compilation of a template list, validating
each template's condition expression; a malformed condition fails the
whole compile with `InvalidCondition` at that position (spec section
4.2). -/
def compileSteps (name : String) (pos : Nat) : List StepTemplate → Except CompileError (List Step)
  | [] => .ok []
  | t :: ts =>
    match t.condition with
    | none =>
      match compileSteps name (pos + 1) ts with
      | .error e => .error e
      | .ok rest => .ok (mkStep name t :: rest)
    | some rc =>
      match validateCondition rc with
      | none => .error (.invalidCondition name pos)
      | some _ =>
        match compileSteps name (pos + 1) ts with
        | .error e => .error e
        | .ok rest => .ok (mkStep name t :: rest)

/-- Modelled from the spec: the Workflow Compiler (spec section 4.2):
resolves a workflow name in the definition graph into an ordered list of
steps by straight lookup-and-copy; fails with `UnknownWorkflow` when the
name is absent. -/
def compile (g : WorkflowDefinition) (name : String) : Except CompileError (List Step) :=
  match lookupWorkflow g name with
  | none => .error (.unknownWorkflow name)
  | some ts => compileSteps name 0 ts

/-- Modelled from the spec: `StepResult` (spec section 3), produced
exactly once per compiled step, in compiled order. -/
structure StepResult where
  workflow_name : String
  command : Option String
  skipped : Bool
  skip_reason : Option String
deriving DecidableEq

/-- Modelled from the spec: `ExecutionResult` (spec section 3). -/
structure ExecutionResult where
  success : Bool
  error : Option String
  steps_executed : Nat
  steps_skipped : Nat
  step_results : List StepResult
deriving DecidableEq

/-- Modelled from the spec: `DecisionRecord` (spec section 3), an audit
log entry; timestamps are modelled as natural numbers drawn from a clock
supplied to the Planner. -/
structure DecisionRecord where
  session_id : String
  timestamp : Nat
  workflow_name : String
  command : Option String
  decision : String
  reason : Option String
deriving DecidableEq

/-- Modelled from the spec: rendering of a comparison operator. -/
def renderOp : CmpOp → String
  | .ge => ">="
  | .gt => ">"
  | .le => "<="
  | .lt => "<"
  | .eq => "=="
  | .ne => "!="

/-- Modelled from the spec: rendering of a scalar value for skip-reason
messages. -/
def renderValue : Value → String
  | .num n => toString n
  | .str s => s
  | .bool b => if b then "true" else "false"

/-- Modelled from the spec: rendering of a condition for skip-reason
messages. -/
def renderCondition : Condition → String
  | .threshold v op lit => v ++ " " ++ renderOp op ++ " " ++ toString lit
  | .presence v => v ++ " present"
  | .absence v => v ++ " absent"

/-- Modelled from the spec: the human-readable skip reason for an
unsatisfied condition, mentioning the condition (with its threshold) and
the variable's actual value (spec section 4.3, for example
"condition not met: complexity >= 7 (actual: 5)"). -/
def conditionSkipReason (ctx : ExecutionContext) (c : Condition) : String :=
  "condition not met: " ++ renderCondition c ++ " (actual: " ++
    (match lookupVar ctx c.var with
     | some val => renderValue val
     | none => "absent") ++ ")"

/-- Modelled from the spec: whether a step carries no usable command
(missing or empty — the call sites test `not step_result.command`, which
is true for both `None` and the empty string). -/
def commandMissing : Option String → Bool
  | none => true
  | some s => s.isEmpty

/-- Modelled from the spec: the distinct skip reason for a step without a
command (spec section 9 keeps it distinct from condition-based skips). -/
def noCommandReason : String := "no command"

/-- Modelled from the spec: the command check of the Planner loop (spec
sections 4.3 and 7): a step with no command is an error case for that
step — recorded, skipped from execution accounting, non-fatal to the run;
otherwise the step is marked for execution. -/
def planCommand (step : Step) : StepResult :=
  if commandMissing step.command then
    { workflow_name := step.workflow_name
      command := step.command
      skipped := true
      skip_reason := some noCommandReason }
  else
    { workflow_name := step.workflow_name
      command := step.command
      skipped := false
      skip_reason := none }

/-- Modelled from the spec: the per-step body of the Planner loop (spec
section 4.3, Step 2): evaluate the condition, if any; an unsatisfied
condition skips the step with a human-readable reason; otherwise fall
through to the command check. -/
def planStep (ctx : ExecutionContext) (step : Step) : StepResult :=
  match step.condition with
  | some c =>
    if evaluate ctx c then
      planCommand step
    else
      { workflow_name := step.workflow_name
        command := step.command
        skipped := true
        skip_reason := some (conditionSkipReason ctx c) }
  | none => planCommand step

/-- Modelled from the spec: the DecisionRecord appended for one step
(spec sections 3 and 4.3): decision "skipped" for a skipped step and
"executed" for a step marked for execution. -/
def decisionFor (session_id : String) (ts : Nat) (r : StepResult) : DecisionRecord :=
  { session_id := session_id
    timestamp := ts
    workflow_name := r.workflow_name
    command := r.command
    decision := if r.skipped then "skipped" else "executed"
    reason := r.skip_reason }

/-- Modelled from the spec: the error message surfaced through
`ExecutionResult.error` for a compile failure (spec section 7). -/
def errorMessage : CompileError → String
  | .unknownWorkflow n => "Unknown workflow: " ++ n
  | .invalidCondition w p => "Invalid condition at step " ++ toString p ++ " of workflow " ++ w

/-- Modelled from the spec: the Execution Planner entry point
`execute_custom_workflow` (spec section 4.3).  `clock` supplies the
timestamp for the i-th audit record; the returned list is the decision
log appended during the call.  On a compile failure it returns the
failure result and writes no DecisionRecord; otherwise every compiled
step yields one StepResult and one DecisionRecord, in compiled order. -/
def execute_custom_workflow (clock : Nat → Nat) (session_id : String)
    (g : WorkflowDefinition) (name : String) (ctx : ExecutionContext) :
    ExecutionResult × List DecisionRecord :=
  match compile g name with
  | .error e =>
    ({ success := false
       error := some (errorMessage e)
       steps_executed := 0
       steps_skipped := 0
       step_results := [] }, [])
  | .ok steps =>
    let results := steps.map (planStep ctx)
    ({ success := true
       error := none
       steps_executed := (results.filter (fun r => !r.skipped)).length
       steps_skipped := (results.filter (fun r => r.skipped)).length
       step_results := results },
     results.enum.map (fun p => decisionFor session_id (clock p.1) p.2))

end Workflow

namespace Benchmark

/-- Embedding of `ConfusionMatrix` from benchmark_triage.py: nine
counters for a three-class (TP / FP / NI) classification problem. -/
structure ConfusionMatrix where
  tp_as_tp : Nat := 0
  tp_as_fp : Nat := 0
  tp_as_ni : Nat := 0
  fp_as_tp : Nat := 0
  fp_as_fp : Nat := 0
  fp_as_ni : Nat := 0
  ni_as_tp : Nat := 0
  ni_as_fp : Nat := 0
  ni_as_ni : Nat := 0
deriving DecidableEq

/-- Embedding of `ConfusionMatrix.total`: the sum of the nine counters. -/
def ConfusionMatrix.total (cm : ConfusionMatrix) : Nat :=
  cm.tp_as_tp + cm.tp_as_fp + cm.tp_as_ni +
  cm.fp_as_tp + cm.fp_as_fp + cm.fp_as_ni +
  cm.ni_as_tp + cm.ni_as_fp + cm.ni_as_ni

/-- Embedding of `ConfusionMatrix.correct`: the diagonal of the matrix. -/
def ConfusionMatrix.correct (cm : ConfusionMatrix) : Nat :=
  cm.tp_as_tp + cm.fp_as_fp + cm.ni_as_ni

/-- Embedding of `ConfusionMatrix.accuracy`.  Python float division of
two integers is modelled as exact rational division; the guard structure
(`if self.total > 0 else 0.0`) is the property under verification. -/
def ConfusionMatrix.accuracy (cm : ConfusionMatrix) : ℚ :=
  if cm.total > 0 then (cm.correct : ℚ) / (cm.total : ℚ) else 0

/-- Embedding of `ConfusionMatrix.update`: the Python dict lookup
`mapping.get((ground_truth, predicted))` followed by a conditional
`setattr` increment — the attribute name is a non-empty string for each
of the nine pairs (truthy), and `None` (falsy, a no-op) otherwise. -/
def ConfusionMatrix.update (cm : ConfusionMatrix) (ground_truth predicted : String) :
    ConfusionMatrix :=
  match ground_truth, predicted with
  | "TP", "TP" => { cm with tp_as_tp := cm.tp_as_tp + 1 }
  | "TP", "FP" => { cm with tp_as_fp := cm.tp_as_fp + 1 }
  | "TP", "NI" => { cm with tp_as_ni := cm.tp_as_ni + 1 }
  | "FP", "TP" => { cm with fp_as_tp := cm.fp_as_tp + 1 }
  | "FP", "FP" => { cm with fp_as_fp := cm.fp_as_fp + 1 }
  | "FP", "NI" => { cm with fp_as_ni := cm.fp_as_ni + 1 }
  | "NI", "TP" => { cm with ni_as_tp := cm.ni_as_tp + 1 }
  | "NI", "FP" => { cm with ni_as_fp := cm.ni_as_fp + 1 }
  | "NI", "NI" => { cm with ni_as_ni := cm.ni_as_ni + 1 }
  | _, _ => cm

/-- View of the nine counters as a list, in declaration order, used to
state that an update touches exactly one of them. -/
def ConfusionMatrix.counters (cm : ConfusionMatrix) : List Nat :=
  [cm.tp_as_tp, cm.tp_as_fp, cm.tp_as_ni,
   cm.fp_as_tp, cm.fp_as_fp, cm.fp_as_ni,
   cm.ni_as_tp, cm.ni_as_fp, cm.ni_as_ni]

/-- Embedding of `BenchmarkMetrics` from benchmark_triage.py: binary
classification counters for one category. -/
structure BenchmarkMetrics where
  true_positives : Nat := 0
  false_positives : Nat := 0
  false_negatives : Nat := 0
  true_negatives : Nat := 0
deriving DecidableEq

/-- Embedding of `BenchmarkMetrics.precision`: TP / (TP + FP), guarded
against a zero denominator. -/
def BenchmarkMetrics.precision (m : BenchmarkMetrics) : ℚ :=
  if m.true_positives + m.false_positives > 0 then
    (m.true_positives : ℚ) / ((m.true_positives + m.false_positives : Nat) : ℚ)
  else 0

/-- Embedding of `BenchmarkMetrics.recall`: TP / (TP + FN), guarded
against a zero denominator. -/
def BenchmarkMetrics.recall (m : BenchmarkMetrics) : ℚ :=
  if m.true_positives + m.false_negatives > 0 then
    (m.true_positives : ℚ) / ((m.true_positives + m.false_negatives : Nat) : ℚ)
  else 0

/-- Embedding of `BenchmarkMetrics.f1_score`: 2 * (p * r) / (p + r) over
the precision and recall, guarded against a zero denominator. -/
def BenchmarkMetrics.f1_score (m : BenchmarkMetrics) : ℚ :=
  if m.precision + m.recall > 0 then
    2 * (m.precision * m.recall) / (m.precision + m.recall)
  else 0

end Benchmark

namespace Events

/-- A parsed JSON value, the shape of what `json.loads` returns in
extract_sample_events.py; only object field lists are inspected by the
extractor. -/
inductive JsonValue where
  | obj (fields : List (String × JsonValue))
  | arr (items : List JsonValue)
  | str (s : String)
  | num (n : Int)
  | bool (b : Bool)
  | null

/-- Model of Python `str.strip()`: remove leading and trailing
whitespace characters. -/
def pyStrip (s : String) : String :=
  ⟨((s.data.dropWhile Char.isWhitespace).reverse.dropWhile Char.isWhitespace).reverse⟩

/-- Splitting of a character list at every occurrence of a separator
character. -/
def splitCharsOn (sep : Char) : List Char → List (List Char)
  | [] => [[]]
  | c :: cs =>
    match splitCharsOn sep cs with
    | [] => [[]]
    | l :: ls => if c = sep then [] :: l :: ls else (c :: l) :: ls

/-- Model of Python `str.split("\n")`. -/
def pySplitNewline (s : String) : List String :=
  (splitCharsOn (Char.ofNat 10) s.data).map (fun l => ⟨l⟩)

/-- The opening-brace character. -/
def openBrace : Char := Char.ofNat 123

/-- Model of Python `str.startswith` for a single-character needle. -/
def pyStartsWith (c : Char) (s : String) : Bool :=
  match s.data with
  | [] => false
  | d :: _ => d = c

/-- Embedding of `required_fields` from `is_valid_event` in
extract_sample_events.py. -/
def required_fields : List String := ["version", "event_type", "timestamp", "agent_id"]

/-- Embedding of `is_valid_event` from extract_sample_events.py: the set
of required field names is a subset of the parsed object's keys. -/
def is_valid_event (event_dict : List (String × JsonValue)) : Bool :=
  required_fields.all (fun k => event_dict.any (fun kv => kv.1 = k))

/-- Embedding of the per-line pipeline of `extract_json_examples` from
extract_sample_events.py.  `blocks` is the list of code-block bodies the
regex over json/jsonl fenced blocks produced, each split into stripped
lines.  `loads` abstracts Python's `json.loads` restricted to its use
here: it returns the field list of the parsed object when the line
parses (a JSON text that begins with an opening brace parses to an
object whenever it parses at all) and `none` on malformed input — the
`try`/`except json.JSONDecodeError` of the source is this `Option`.
Totality of this function is the model of the guarantee that the
extractor never raises on malformed JSON. -/
def extract_json_examples (loads : String → Option (List (String × JsonValue)))
    (blocks : List String) : List String :=
  blocks.flatMap fun m =>
    ((pySplitNewline (pyStrip m)).map pyStrip).filter fun line =>
      !line.data.isEmpty && pyStartsWith openBrace line &&
        (match loads line with
         | some event_dict => is_valid_event event_dict
         | none => false)

/-- A sample event line used as a concrete test input: a JSON object
carrying the four required event fields. -/
def demoEventLine : String :=
  "\x7b\"version\": \"1.1\", \"event_type\": \"run_start\", \"timestamp\": \"t0\", \"agent_id\": \"a1\"\x7d"

/-- The field list of the sample event line. -/
def demoFields : List (String × JsonValue) :=
  [("version", .str "1.1"), ("event_type", .str "run_start"),
   ("timestamp", .str "t0"), ("agent_id", .str "a1")]

/-- A concrete parse function recognising exactly the sample event line,
used to exercise the extractor on concrete input. -/
def demoLoads (s : String) : Option (List (String × JsonValue)) :=
  if s = demoEventLine then some demoFields else none

end Events

namespace Workflow

/-- The quick_build workflow of the call sites: three unconditioned
steps (spec section 8 end-to-end scenario). -/
def quickBuildTemplates : List StepTemplate :=
  [{ command := some "/flow:specify", condition := none, agents := [] },
   { command := some "/flow:build", condition := none, agents := [] },
   { command := some "/flow:test", condition := none, agents := [] }]

/-- The full_design workflow of the call sites: an unconditioned step
followed by a step gated on complexity >= 7 (spec section 8 end-to-end
scenario). -/
def fullDesignTemplates : List StepTemplate :=
  [{ command := some "/flow:specify", condition := none, agents := [] },
   { command := some "/flow:research",
     condition := some (.threshold "complexity" .ge 7), agents := [] }]

/-- A concrete definition graph holding the two demo workflows. -/
def demoGraph : WorkflowDefinition :=
  [("quick_build", quickBuildTemplates), ("full_design", fullDesignTemplates)]

/-- Templates of a workflow whose first step carries no command, used to
exercise the missing-command path on concrete input. -/
def patchRunTemplates : List StepTemplate :=
  [{ command := none, condition := none, agents := [] },
   { command := some "/flow:test", condition := none, agents := [] }]

/-- A definition graph whose patch_run workflow has a first step without
a command. -/
def mixedGraph : WorkflowDefinition :=
  [("patch_run", patchRunTemplates)]

/-- Modelled from the spec: a decision record with its timestamp erased,
used to state determinism of the Planner up to timestamps in audit
records (spec section 4.3). -/
def eraseTimestamp (r : DecisionRecord) : DecisionRecord :=
  { r with timestamp := 0 }

/-- A definition graph whose bad_flow workflow carries a malformed
condition expression, used to exercise the InvalidCondition path on
concrete input. -/
def malformedGraph : WorkflowDefinition :=
  [("bad_flow",
    [{ command := some "/flow:specify",
       condition := some (.malformed "complexity >>> seven"), agents := [] }])]

end Workflow

open Workflow

/-- Auxiliary: the lengths of the executed and skipped partitions of a
step-result list sum to its length. -/
theorem filter_skipped_length (l : List StepResult) :
    (l.filter (fun r => !r.skipped)).length + (l.filter (fun r => r.skipped)).length =
      l.length := by
  induction l with
  | nil => rfl
  | cons a t ih =>
    cases ha : a.skipped <;> simp [List.filter_cons, ha] <;> omega

/-- C1: for every call to execute_custom_workflow, the returned
ExecutionResult satisfies steps_executed + steps_skipped ==
len(step_results), regardless of workflow name, definition graph, or
context. -/
theorem execute_counts_invariant (clock : Nat → Nat) (session_id : String)
    (g : WorkflowDefinition) (name : String) (ctx : ExecutionContext) :
    (execute_custom_workflow clock session_id g name ctx).1.steps_executed +
      (execute_custom_workflow clock session_id g name ctx).1.steps_skipped =
      (execute_custom_workflow clock session_id g name ctx).1.step_results.length := by
  cases hc : compile g name with
  | error e => simp [execute_custom_workflow, hc]
  | ok steps => simp [execute_custom_workflow, hc, filter_skipped_length]

/-- Auxiliary: a successful compile of a template list is exactly the
pointwise translation of the templates, in order. -/
theorem compileSteps_ok_map (name : String) (ts : List StepTemplate) :
    ∀ (pos : Nat) (steps : List Step),
      compileSteps name pos ts = Except.ok steps → steps = ts.map (mkStep name) := by
  induction ts with
  | nil =>
    intro pos steps h
    simp only [compileSteps, Except.ok.injEq] at h
    simp [← h]
  | cons t rest ih =>
    intro pos steps h
    simp only [compileSteps] at h
    cases hcond : t.condition with
    | none =>
      simp only [hcond] at h
      cases hrec : compileSteps name (pos + 1) rest with
      | error e => simp only [hrec] at h; exact Except.noConfusion h
      | ok rest2 =>
        simp only [hrec, Except.ok.injEq] at h
        rw [← h]
        simp [ih (pos + 1) rest2 hrec]
    | some rc =>
      simp only [hcond] at h
      cases hval : validateCondition rc with
      | none => simp only [hval] at h; exact Except.noConfusion h
      | some c =>
        simp only [hval] at h
        cases hrec : compileSteps name (pos + 1) rest with
        | error e => simp only [hrec] at h; exact Except.noConfusion h
        | ok rest2 =>
          simp only [hrec, Except.ok.injEq] at h
          rw [← h]
          simp [ih (pos + 1) rest2 hrec]

/-- C7: for every workflow name present in the definition graph, the
Compiler's output step sequence equals the definition's step-template
list verbatim: same length, same order, no step reordered, merged, or
deduplicated. -/
theorem compile_preserves_templates (g : WorkflowDefinition) (name : String)
    (steps : List Step) (h : compile g name = Except.ok steps) :
    ∃ ts, lookupWorkflow g name = some ts ∧ steps = ts.map (mkStep name) ∧
      steps.length = ts.length := by
  unfold compile at h
  cases hl : lookupWorkflow g name with
  | none => rw [hl] at h; exact absurd h (by simp)
  | some ts =>
    rw [hl] at h
    have hmap := compileSteps_ok_map name ts 0 steps h
    exact ⟨ts, rfl, hmap, by simp [hmap]⟩

/-- Witness for C7 at the concrete quick_build workflow of the demo
graph. -/
theorem compile_preserves_templates_witness :
    ∃ ts, lookupWorkflow demoGraph "quick_build" = some ts ∧
      quickBuildTemplates.map (mkStep "quick_build") = ts.map (mkStep "quick_build") ∧
      (quickBuildTemplates.map (mkStep "quick_build")).length = ts.length :=
  compile_preserves_templates demoGraph "quick_build"
    (quickBuildTemplates.map (mkStep "quick_build")) (by rfl)

/-- Auxiliary: a template list containing a malformed condition never
compiles successfully. -/
theorem compileSteps_malformed_error (name : String) (ts : List StepTemplate) :
    ∀ (pos : Nat) (t : StepTemplate) (txt : String), t ∈ ts →
      t.condition = some (RawCondition.malformed txt) →
      ∃ e, compileSteps name pos ts = Except.error e := by
  induction ts with
  | nil => intro pos t txt hmem; exact absurd hmem (List.not_mem_nil t)
  | cons a rest ih =>
    intro pos t txt hmem hcond
    rcases List.mem_cons.mp hmem with rfl | hmem2
    · exact ⟨.invalidCondition name pos, by simp [compileSteps, hcond, validateCondition]⟩
    · cases hac : a.condition with
      | none =>
        obtain ⟨e, he⟩ := ih (pos + 1) t txt hmem2 hcond
        exact ⟨e, by simp [compileSteps, hac, he]⟩
      | some rc =>
        cases hv : validateCondition rc with
        | none => exact ⟨.invalidCondition name pos, by simp [compileSteps, hac, hv]⟩
        | some c =>
          obtain ⟨e, he⟩ := ih (pos + 1) t txt hmem2 hcond
          exact ⟨e, by simp [compileSteps, hac, hv, he]⟩

/-- Auxiliary: compile-failure messages are never empty. -/
theorem errorMessage_ne_empty (e : CompileError) : errorMessage e ≠ "" := by
  cases e with
  | unknownWorkflow n =>
    intro h
    have hl := congrArg String.length h
    simp only [errorMessage, String.length_append] at hl
    have h1 : ("Unknown workflow: " : String).length = 18 := rfl
    have h2 : ("" : String).length = 0 := rfl
    omega
  | invalidCondition w p =>
    intro h
    have hl := congrArg String.length h
    simp only [errorMessage, String.length_append] at hl
    have h1 : ("Invalid condition at step " : String).length = 26 := rfl
    have h2 : ("" : String).length = 0 := rfl
    omega

/-- C2: when execute_custom_workflow is called with a workflow name
absent from the definition graph (or a step has a malformed condition),
the compile fails and the call returns normally with
ExecutionResult(success=false, error=non-empty message, steps_executed=0,
steps_skipped=0, step_results=[]) and writes no DecisionRecord (the
Planner model never invokes the Delegate; in the failure case it also
appends nothing to the decision log). -/
theorem execute_compile_failure (clock : Nat → Nat) (session_id : String)
    (g : WorkflowDefinition) (name : String) (ctx : ExecutionContext) :
    (lookupWorkflow g name = none →
      compile g name = Except.error (CompileError.unknownWorkflow name)) ∧
    (∀ ts t txt, lookupWorkflow g name = some ts → t ∈ ts →
      t.condition = some (RawCondition.malformed txt) →
      ∃ e, compile g name = Except.error e) ∧
    (∀ e, compile g name = Except.error e →
      (execute_custom_workflow clock session_id g name ctx).1.success = false ∧
      (∃ msg, (execute_custom_workflow clock session_id g name ctx).1.error = some msg ∧
        msg ≠ "") ∧
      (execute_custom_workflow clock session_id g name ctx).1.steps_executed = 0 ∧
      (execute_custom_workflow clock session_id g name ctx).1.steps_skipped = 0 ∧
      (execute_custom_workflow clock session_id g name ctx).1.step_results = [] ∧
      (execute_custom_workflow clock session_id g name ctx).2 = []) := by
  refine ⟨?_, ?_, ?_⟩
  · intro hl
    simp [compile, hl]
  · intro ts t txt hl hmem hcond
    obtain ⟨e, he⟩ := compileSteps_malformed_error name ts 0 t txt hmem hcond
    exact ⟨e, by simp [compile, hl, he]⟩
  · intro e he
    refine ⟨?_, ⟨errorMessage e, ?_, errorMessage_ne_empty e⟩, ?_, ?_, ?_, ?_⟩ <;>
      simp [execute_custom_workflow, he]

/-- Witness for C2 at a workflow name absent from the demo graph. -/
theorem execute_compile_failure_witness :
    (execute_custom_workflow (fun _ => 0) "s" demoGraph "deploy" []).1.success = false ∧
    (execute_custom_workflow (fun _ => 0) "s" demoGraph "deploy" []).1.step_results = [] ∧
    (execute_custom_workflow (fun _ => 0) "s" demoGraph "deploy" []).2 = [] := by
  have h := execute_compile_failure (fun _ => 0) "s" demoGraph "deploy" []
  have hc : compile demoGraph "deploy" = Except.error (CompileError.unknownWorkflow "deploy") :=
    h.1 (by decide)
  obtain ⟨h1, _, _, _, h5, h6⟩ := h.2.2 _ hc
  exact ⟨h1, h5, h6⟩

/-- C4: for every context and every condition referencing a variable
absent from that context, the Condition Evaluator returns not satisfied
(the step is excluded) — the evaluator is a total function, so nothing is
raised — unless the condition is explicitly an absence test, in which
case it is satisfied. -/
theorem evaluate_absent_fails_closed (ctx : ExecutionContext) (c : Condition)
    (h : lookupVar ctx c.var = none) :
    evaluate ctx c = c.isAbsence := by
  cases c with
  | threshold v op lit =>
    simp only [Condition.var] at h
    simp [evaluate, h, Condition.isAbsence]
  | presence v =>
    simp only [Condition.var] at h
    simp [evaluate, h, Condition.isAbsence]
  | absence v =>
    simp only [Condition.var] at h
    simp [evaluate, h, Condition.isAbsence]

/-- Witness for C4: a threshold condition on an empty context fails
closed, an absence test on an empty context is satisfied. -/
theorem evaluate_absent_fails_closed_witness :
    evaluate [] (Condition.threshold "complexity" CmpOp.ge 7) = false ∧
    evaluate [] (Condition.absence "complexity") = true := by
  constructor
  · have h := evaluate_absent_fails_closed [] (Condition.threshold "complexity" CmpOp.ge 7)
      (by decide)
    simpa [Condition.isAbsence] using h
  · have h := evaluate_absent_fails_closed [] (Condition.absence "complexity") (by decide)
    simpa [Condition.isAbsence] using h

/-- C3: execute_custom_workflow is deterministic: the ExecutionResult —
step_results content, counts, success and error — does not depend on the
clock supplying audit timestamps, and the decision logs of two runs agree
record for record once timestamps are erased. -/
theorem execute_deterministic (clock₁ clock₂ : Nat → Nat) (session_id : String)
    (g : WorkflowDefinition) (name : String) (ctx : ExecutionContext) :
    (execute_custom_workflow clock₁ session_id g name ctx).1 =
      (execute_custom_workflow clock₂ session_id g name ctx).1 ∧
    (execute_custom_workflow clock₁ session_id g name ctx).2.map eraseTimestamp =
      (execute_custom_workflow clock₂ session_id g name ctx).2.map eraseTimestamp := by
  cases hc : compile g name with
  | error e => simp [execute_custom_workflow, hc]
  | ok steps =>
    constructor
    · simp [execute_custom_workflow, hc]
    · simp only [execute_custom_workflow, hc, List.map_map]
      have hfun : (eraseTimestamp ∘ fun p : Nat × StepResult =>
            decisionFor session_id (clock₁ p.1) p.2) =
          (eraseTimestamp ∘ fun p : Nat × StepResult =>
            decisionFor session_id (clock₂ p.1) p.2) := by
        funext p
        rfl
      rw [hfun]

/-- C5: for the full_design step gated by complexity >= 7, executing with
context complexity=5 yields a StepResult with skipped=true and a
skip_reason mentioning the threshold (7) and the actual value (5);
executing with context complexity=8 yields skipped=false. -/
theorem conditional_step_threshold_demo :
    ((execute_custom_workflow (fun _ => 0) "s" demoGraph "full_design"
        [("complexity", Value.num 5)]).1.step_results.get? 1 =
      some { workflow_name := "full_design", command := some "/flow:research",
             skipped := true,
             skip_reason := some "condition not met: complexity >= 7 (actual: 5)" }) ∧
    (∃ pre post,
      "condition not met: complexity >= 7 (actual: 5)" = pre ++ "7" ++ post) ∧
    (∃ pre post,
      "condition not met: complexity >= 7 (actual: 5)" = pre ++ "5" ++ post) ∧
    ((execute_custom_workflow (fun _ => 0) "s" demoGraph "full_design"
        [("complexity", Value.num 8)]).1.step_results.get? 1 =
      some { workflow_name := "full_design", command := some "/flow:research",
             skipped := false, skip_reason := none }) := by
  refine ⟨by decide, ?_, ?_, by decide⟩
  · exact ⟨"condition not met: complexity >= ", " (actual: 5)", by decide⟩
  · exact ⟨"condition not met: complexity >= 7 (actual: ", ")", by decide⟩

/-- Auxiliary: a step whose command is missing or empty is planned as
skipped with a recorded reason, whatever its condition does. -/
theorem planStep_missing_command (ctx : ExecutionContext) (step : Step)
    (h : commandMissing step.command = true) :
    (planStep ctx step).skipped = true ∧ (planStep ctx step).skip_reason ≠ none := by
  cases hc : step.condition with
  | none => simp [planStep, hc, planCommand, h]
  | some c =>
    cases he : evaluate ctx c
    · simp [planStep, hc, he]
    · simp [planStep, hc, he, planCommand, h]

/-- C6: a compiled step with no command (empty or missing) is non-fatal:
the Planner records it for that step (skipped with a non-empty reason,
excluded from execution accounting), continues processing all subsequent
steps (one StepResult per compiled step), and the run still returns
success=true — such a step never causes success=false. -/
theorem no_command_step_nonfatal (clock : Nat → Nat) (session_id : String)
    (g : WorkflowDefinition) (name : String) (ctx : ExecutionContext)
    (steps : List Step) (h : compile g name = Except.ok steps) :
    (execute_custom_workflow clock session_id g name ctx).1.success = true ∧
    (execute_custom_workflow clock session_id g name ctx).1.step_results.length =
      steps.length ∧
    (execute_custom_workflow clock session_id g name ctx).1.steps_executed =
      ((execute_custom_workflow clock session_id g name ctx).1.step_results.filter
        (fun r => !r.skipped)).length ∧
    (∀ i, ∀ hi : i < steps.length, commandMissing (steps.get ⟨i, hi⟩).command = true →
      ∃ hi2 : i < (execute_custom_workflow clock session_id g name ctx).1.step_results.length,
        ((execute_custom_workflow clock session_id g name ctx).1.step_results.get
          ⟨i, hi2⟩).skipped = true ∧
        ((execute_custom_workflow clock session_id g name ctx).1.step_results.get
          ⟨i, hi2⟩).skip_reason ≠ none) := by
  refine ⟨by simp [execute_custom_workflow, h], by simp [execute_custom_workflow, h],
    by simp [execute_custom_workflow, h], ?_⟩
  intro i hi hm
  have hi2 : i < (execute_custom_workflow clock session_id g name ctx).1.step_results.length := by
    simp [execute_custom_workflow, h]
    exact hi
  refine ⟨hi2, ?_⟩
  have hget : (execute_custom_workflow clock session_id g name ctx).1.step_results.get
      ⟨i, hi2⟩ = planStep ctx (steps.get ⟨i, hi⟩) := by
    simp [execute_custom_workflow, h, List.get_eq_getElem, List.getElem_map]
  rw [hget]
  exact planStep_missing_command ctx (steps.get ⟨i, hi⟩) hm

/-- Witness for C6 at the patch_run workflow, whose first compiled step
has no command. -/
theorem no_command_step_nonfatal_witness :
    (execute_custom_workflow (fun _ => 0) "s" mixedGraph "patch_run" []).1.success = true ∧
    ∃ hi2 : 0 < (execute_custom_workflow (fun _ => 0) "s" mixedGraph
        "patch_run" []).1.step_results.length,
      ((execute_custom_workflow (fun _ => 0) "s" mixedGraph
        "patch_run" []).1.step_results.get ⟨0, hi2⟩).skipped = true := by
  have h := no_command_step_nonfatal (fun _ => 0) "s" mixedGraph "patch_run" []
    (patchRunTemplates.map (mkStep "patch_run")) (by rfl)
  obtain ⟨h1, hlen, hcnt, hpt⟩ := h
  obtain ⟨hi2, hsk, _⟩ := hpt 0 (by decide) (by decide)
  exact ⟨h1, hi2, hsk⟩

/-- C8: the benchmark metric properties are total and never divide by
zero: accuracy is correct/total when total > 0 and 0 when total = 0;
precision is TP/(TP+FP) (0 when TP+FP = 0); recall is TP/(TP+FN) (0 when
TP+FN = 0); f1_score is 2*precision*recall/(precision+recall) (0 when
precision+recall = 0). -/
theorem metrics_total_no_div_zero (cm : Benchmark.ConfusionMatrix)
    (m : Benchmark.BenchmarkMetrics) :
    (cm.total > 0 → cm.accuracy = (cm.correct : ℚ) / (cm.total : ℚ)) ∧
    (cm.total = 0 → cm.accuracy = 0) ∧
    (m.true_positives + m.false_positives > 0 →
      m.precision =
        (m.true_positives : ℚ) / ((m.true_positives + m.false_positives : Nat) : ℚ)) ∧
    (m.true_positives + m.false_positives = 0 → m.precision = 0) ∧
    (m.true_positives + m.false_negatives > 0 →
      m.recall =
        (m.true_positives : ℚ) / ((m.true_positives + m.false_negatives : Nat) : ℚ)) ∧
    (m.true_positives + m.false_negatives = 0 → m.recall = 0) ∧
    (m.precision + m.recall > 0 →
      m.f1_score = 2 * (m.precision * m.recall) / (m.precision + m.recall)) ∧
    (m.precision + m.recall = 0 → m.f1_score = 0) := by
  refine ⟨?_, ?_, ?_, ?_, ?_, ?_, ?_, ?_⟩ <;> intro h
  · unfold Benchmark.ConfusionMatrix.accuracy
    rw [if_pos h]
  · unfold Benchmark.ConfusionMatrix.accuracy
    rw [if_neg (by omega)]
  · unfold Benchmark.BenchmarkMetrics.precision
    rw [if_pos h]
  · unfold Benchmark.BenchmarkMetrics.precision
    rw [if_neg (by omega)]
  · unfold Benchmark.BenchmarkMetrics.recall
    rw [if_pos h]
  · unfold Benchmark.BenchmarkMetrics.recall
    rw [if_neg (by omega)]
  · unfold Benchmark.BenchmarkMetrics.f1_score
    rw [if_pos h]
  · unfold Benchmark.BenchmarkMetrics.f1_score
    rw [if_neg (by rw [h]; exact lt_irrefl 0)]

/-- Witness for C8: the all-zero matrix has accuracy 0, and precision is
1/2 at one true and one false positive. -/
theorem metrics_total_no_div_zero_witness :
    (Benchmark.ConfusionMatrix.mk 0 0 0 0 0 0 0 0 0).accuracy = 0 ∧
    (Benchmark.BenchmarkMetrics.mk 1 1 0 0).precision = (1 : ℚ) / 2 := by
  have h := metrics_total_no_div_zero (Benchmark.ConfusionMatrix.mk 0 0 0 0 0 0 0 0 0)
    (Benchmark.BenchmarkMetrics.mk 1 1 0 0)
  refine ⟨h.2.1 (by decide), ?_⟩
  have hp := h.2.2.1 (by decide)
  rw [hp]
  norm_num

/-- C9: for a pair of labels both in TP/FP/NI, ConfusionMatrix.update
increments exactly one of the nine counters by 1 (so total grows by
exactly 1); for a pair with either label outside that set, the matrix —
hence total, correct and accuracy — is left unchanged. -/
theorem confusion_update_exactly_one (cm : Benchmark.ConfusionMatrix) (gt pred : String) :
    ((gt = "TP" ∨ gt = "FP" ∨ gt = "NI") → (pred = "TP" ∨ pred = "FP" ∨ pred = "NI") →
      (cm.update gt pred).total = cm.total + 1 ∧
      ∃ i, i < 9 ∧ ∀ j, j < 9 →
        (cm.update gt pred).counters.getD j 0 =
          cm.counters.getD j 0 + (if j = i then 1 else 0)) ∧
    ((¬(gt = "TP" ∨ gt = "FP" ∨ gt = "NI") ∨ ¬(pred = "TP" ∨ pred = "FP" ∨ pred = "NI")) →
      cm.update gt pred = cm) := by
  constructor
  · intro hg hp
    rcases hg with rfl | rfl | rfl <;> rcases hp with rfl | rfl | rfl
    · refine ⟨?_, 0, by omega, fun j hj => ?_⟩
      · simp [Benchmark.ConfusionMatrix.update, Benchmark.ConfusionMatrix.total]; omega
      · interval_cases j <;>
          simp [Benchmark.ConfusionMatrix.update, Benchmark.ConfusionMatrix.counters]
    · refine ⟨?_, 1, by omega, fun j hj => ?_⟩
      · simp [Benchmark.ConfusionMatrix.update, Benchmark.ConfusionMatrix.total]; omega
      · interval_cases j <;>
          simp [Benchmark.ConfusionMatrix.update, Benchmark.ConfusionMatrix.counters]
    · refine ⟨?_, 2, by omega, fun j hj => ?_⟩
      · simp [Benchmark.ConfusionMatrix.update, Benchmark.ConfusionMatrix.total]; omega
      · interval_cases j <;>
          simp [Benchmark.ConfusionMatrix.update, Benchmark.ConfusionMatrix.counters]
    · refine ⟨?_, 3, by omega, fun j hj => ?_⟩
      · simp [Benchmark.ConfusionMatrix.update, Benchmark.ConfusionMatrix.total]; omega
      · interval_cases j <;>
          simp [Benchmark.ConfusionMatrix.update, Benchmark.ConfusionMatrix.counters]
    · refine ⟨?_, 4, by omega, fun j hj => ?_⟩
      · simp [Benchmark.ConfusionMatrix.update, Benchmark.ConfusionMatrix.total]; omega
      · interval_cases j <;>
          simp [Benchmark.ConfusionMatrix.update, Benchmark.ConfusionMatrix.counters]
    · refine ⟨?_, 5, by omega, fun j hj => ?_⟩
      · simp [Benchmark.ConfusionMatrix.update, Benchmark.ConfusionMatrix.total]; omega
      · interval_cases j <;>
          simp [Benchmark.ConfusionMatrix.update, Benchmark.ConfusionMatrix.counters]
    · refine ⟨?_, 6, by omega, fun j hj => ?_⟩
      · simp [Benchmark.ConfusionMatrix.update, Benchmark.ConfusionMatrix.total]; omega
      · interval_cases j <;>
          simp [Benchmark.ConfusionMatrix.update, Benchmark.ConfusionMatrix.counters]
    · refine ⟨?_, 7, by omega, fun j hj => ?_⟩
      · simp [Benchmark.ConfusionMatrix.update, Benchmark.ConfusionMatrix.total]; omega
      · interval_cases j <;>
          simp [Benchmark.ConfusionMatrix.update, Benchmark.ConfusionMatrix.counters]
    · refine ⟨?_, 8, by omega, fun j hj => ?_⟩
      · simp [Benchmark.ConfusionMatrix.update, Benchmark.ConfusionMatrix.total]; omega
      · interval_cases j <;>
          simp [Benchmark.ConfusionMatrix.update, Benchmark.ConfusionMatrix.counters]
  · intro h
    unfold Benchmark.ConfusionMatrix.update
    split <;> simp_all

/-- Witness for C9: updating the zero matrix at ("TP","NI") makes the
total 1, and updating at ("XX","TP") changes nothing. -/
theorem confusion_update_exactly_one_witness :
    ((Benchmark.ConfusionMatrix.mk 0 0 0 0 0 0 0 0 0).update "TP" "NI").total = 1 ∧
    (Benchmark.ConfusionMatrix.mk 0 0 0 0 0 0 0 0 0).update "XX" "TP" =
      Benchmark.ConfusionMatrix.mk 0 0 0 0 0 0 0 0 0 := by
  constructor
  · have h := (confusion_update_exactly_one
      (Benchmark.ConfusionMatrix.mk 0 0 0 0 0 0 0 0 0) "TP" "NI").1 (by decide) (by decide)
    rw [h.1]
    decide
  · exact (confusion_update_exactly_one
      (Benchmark.ConfusionMatrix.mk 0 0 0 0 0 0 0 0 0) "XX" "TP").2 (by decide)

/-- C10: every string in the list returned by extract_json_examples
parses as a JSON object containing all four required event fields
(version, event_type, timestamp, agent_id); candidate lines that do not
parse or lack a required field are dropped, and the extractor is a total
function — the model of never raising on malformed JSON. -/
theorem extract_json_examples_valid
    (loads : String → Option (List (String × Events.JsonValue)))
    (blocks : List String) (s : String)
    (h : s ∈ Events.extract_json_examples loads blocks) :
    ∃ event_dict, loads s = some event_dict ∧
      Events.is_valid_event event_dict = true ∧
      (∀ k ∈ Events.required_fields, ∃ v, (k, v) ∈ event_dict) := by
  unfold Events.extract_json_examples at h
  rw [List.mem_flatMap] at h
  obtain ⟨m, _, hmem⟩ := h
  rw [List.mem_filter] at hmem
  obtain ⟨_, hp⟩ := hmem
  simp only [Bool.and_eq_true] at hp
  obtain ⟨⟨_, _⟩, hv⟩ := hp
  cases hl : loads s with
  | none => rw [hl] at hv; exact absurd hv (by simp)
  | some d =>
    rw [hl] at hv
    refine ⟨d, rfl, hv, ?_⟩
    intro k hk
    unfold Events.is_valid_event at hv
    have hall := List.all_eq_true.mp hv k hk
    obtain ⟨kv, hkv, hkeq⟩ := List.any_eq_true.mp hall
    refine ⟨kv.2, ?_⟩
    have : kv.1 = k := by simpa using hkeq
    rw [← this]
    exact hkv

/-- Witness for C10: the sample event line survives extraction from a
block that also carries a malformed line, and therefore parses with all
required fields. -/
theorem extract_json_examples_valid_witness :
    ∃ event_dict, Events.demoLoads Events.demoEventLine = some event_dict ∧
      Events.is_valid_event event_dict = true ∧
      (∀ k ∈ Events.required_fields, ∃ v, (k, v) ∈ event_dict) :=
  extract_json_examples_valid Events.demoLoads
    [Events.demoEventLine ++ "\n" ++ "not json"] Events.demoEventLine (by decide)
